import Mathlib

/-!
Verification of the InjSense biosignal feature-extraction and risk-scoring
pipeline. Signals are idealized as lists of rationals (for the exactly
computable parts) or reals (where a square root occurs); Python machine
floats are modelled by exact arithmetic, `int()` by truncation toward zero,
and exceptions by `Option`/`Except` results.
-/

namespace InjSense

/-! ## Feature extraction (src/InjSense-Model/src/feature_extraction.py) -/

/-- Embedding of numpy sign: 1 for positive, -1 for negative, 0 for zero. -/
def sign (x : ℚ) : ℤ :=
  if 0 < x then 1 else if x < 0 then -1 else 0

/-- Embedding of numpy diff: adjacent differences a[i+1] - a[i]. -/
def diffList (l : List ℤ) : List ℤ :=
  List.zipWith (fun a b => a - b) l.tail l

/-- Embedding of the zero-crossing feature of extract_emg_features:
np.sum(np.diff(np.sign(signal)) != 0). -/
def zeroCrossingCount (xs : List ℚ) : ℕ :=
  (diffList (xs.map sign)).countP (fun d => d != 0)

/-- Specification-side count: the number of indices i with
sign x[i] different from sign x[i+1]. -/
def zcSpecCount (xs : List ℚ) : ℕ :=
  (xs.zip xs.tail).countP (fun p => sign p.1 != sign p.2)

/-! ## Muscle fatigue (src/data_processor.py, calculate_muscle_fatigue) -/

/-- Embedding of numpy cumsum with a running accumulator. -/
def cumsumAux (acc : ℚ) : List ℚ → List ℚ
  | [] => []
  | x :: xs => (acc + x) :: cumsumAux (acc + x) xs

/-- Embedding of np.cumsum on a list of rationals. -/
def cumsum (l : List ℚ) : List ℚ := cumsumAux 0 l

/-- Index of the first true entry of a boolean list, if any. -/
def firstTrue : List Bool → Option ℕ
  | [] => none
  | b :: bs => if b then some 0 else (firstTrue bs).map (fun i => i + 1)

/-- Embedding of np.argmax on a boolean array: index of the first true
entry, or 0 when no entry is true. -/
def argmaxBool (l : List Bool) : ℕ := (firstTrue l).getD 0

/-- Index selected by calculate_muscle_fatigue for the median frequency:
np.argmax(cumulative_power >= total_power / 2). -/
def medianIdx (Pxx : List ℚ) : ℕ :=
  argmaxBool ((cumsum Pxx).map (fun c => decide (Pxx.sum / 2 ≤ c)))

/-- Embedding of calculate_muscle_fatigue, taking the Welch power spectrum
(frequency list f and power list Pxx, as produced by the scipy library
call) as input: median frequency extraction followed by the linear fatigue
mapping clamped to [0, 100]. -/
def calculate_muscle_fatigue_from_psd (f Pxx : List ℚ) : ℚ :=
  let median_freq := f.getD (medianIdx Pxx) 0
  let fatigue_index := 100 * (1 - (median_freq - 30) / 90)
  max 0 (min 100 fatigue_index)

/-! ### Supporting lemmas -/

theorem cumsumAux_length (acc : ℚ) (l : List ℚ) :
    (cumsumAux acc l).length = l.length := by
  induction l generalizing acc with
  | nil => rfl
  | cons x xs ih => simp [cumsumAux, ih]

theorem cumsum_length (l : List ℚ) : (cumsum l).length = l.length :=
  cumsumAux_length 0 l

theorem cumsumAux_sum_mem (acc : ℚ) (l : List ℚ) (h : l ≠ []) :
    acc + l.sum ∈ cumsumAux acc l := by
  induction l generalizing acc with
  | nil => exact absurd rfl h
  | cons x xs ih =>
    rcases eq_or_ne xs [] with rfl | hne
    · simp [cumsumAux]
    · have hmem := ih (acc + x) hne
      have heq : acc + (x :: xs).sum = acc + x + xs.sum := by simp; ring
      rw [heq, cumsumAux]
      exact List.mem_cons_of_mem _ hmem

theorem cumsum_sum_mem (l : List ℚ) (h : l ≠ []) : l.sum ∈ cumsum l := by
  have := cumsumAux_sum_mem 0 l h
  simpa [cumsum] using this

theorem firstTrue_eq_some (l : List Bool) (i : ℕ) (h : firstTrue l = some i) :
    i < l.length ∧ l.getD i false = true ∧ ∀ j, j < i → l.getD j false = false := by
  induction l generalizing i with
  | nil => simp [firstTrue] at h
  | cons b bs ih =>
    by_cases hb : b
    · simp [firstTrue, hb] at h
      subst h
      refine ⟨by simp, by simp [hb], fun j hj => absurd hj (by omega)⟩
    · have hb' : b = false := by simpa using hb
      simp [firstTrue, hb'] at h
      obtain ⟨i0, h0, rfl⟩ := h
      obtain ⟨h1, h2, h3⟩ := ih i0 h0
      refine ⟨by simpa using h1, by simpa using h2, ?_⟩
      intro j hj
      cases j with
      | zero => simp [hb']
      | succ j0 =>
        have := h3 j0 (by omega)
        simpa using this

theorem firstTrue_isSome (l : List Bool) (h : true ∈ l) :
    (firstTrue l).isSome = true := by
  induction l with
  | nil => simp at h
  | cons b bs ih =>
    by_cases hb : b
    · simp [firstTrue, hb]
    · rcases List.mem_cons.mp h with h1 | h1
      · exact absurd h1.symm hb
      · obtain ⟨a, ha⟩ := Option.isSome_iff_exists.mp (ih h1)
        simp [firstTrue, hb, ha]

theorem zeroCrossingCount_eq (xs : List ℚ) : zeroCrossingCount xs = zcSpecCount xs := by
  induction xs with
  | nil => rfl
  | cons x xs ih =>
    cases xs with
    | nil => rfl
    | cons y ys =>
      have hd : diffList ((x :: y :: ys).map sign) =
          (sign y - sign x) :: diffList ((y :: ys).map sign) := rfl
      have hz : (x :: y :: ys).zip (x :: y :: ys).tail =
          (x, y) :: (y :: ys).zip (y :: ys).tail := rfl
      unfold zeroCrossingCount zcSpecCount
      rw [hd, hz, List.countP_cons, List.countP_cons]
      unfold zeroCrossingCount zcSpecCount at ih
      rw [ih]
      congr 1
      by_cases hc : sign x = sign y
      · simp [hc]
      · have h1 : sign y - sign x ≠ 0 := sub_ne_zero.mpr (Ne.symm hc)
        simp [h1, hc]

/-- C6: the zero-crossing feature of extract_emg_features counts exactly the
indices i at which sign x[i] differs from sign x[i+1] (held-at-zero runs do
not count), and in particular the count for [1, -1, 1, -1] is 3. -/
theorem c6_zero_crossing_feature :
    (∀ xs : List ℚ, zeroCrossingCount xs = zcSpecCount xs) ∧
    zeroCrossingCount [1, -1, 1, -1] = 3 :=
  ⟨zeroCrossingCount_eq, by decide⟩

theorem getD_map_bool (g : ℚ → Bool) (l : List ℚ) (i : ℕ) (h : i < l.length) :
    (l.map g).getD i false = g (l.getD i 0) := by
  rw [List.getD_eq_getElem _ _ (by simpa using h), List.getD_eq_getElem _ _ h,
    List.getElem_map]

/-- C5: calculate_muscle_fatigue picks as median frequency the entry of f at
the first index where cumulative power reaches half the total power, maps it
through 100 * (1 - (median_freq - 30) / 90), clamps to [0, 100], and the
result always lies in [0, 100]. The Welch power spectrum (a scipy library
call) is taken as the input pair (f, Pxx). -/
theorem c5_fatigue_index (f Pxx : List ℚ) (hlen : f.length = Pxx.length)
    (hne : Pxx ≠ []) (hpos : ∀ x ∈ Pxx, 0 ≤ x) :
    medianIdx Pxx < Pxx.length ∧
    medianIdx Pxx < f.length ∧
    Pxx.sum / 2 ≤ (cumsum Pxx).getD (medianIdx Pxx) 0 ∧
    (∀ j, j < medianIdx Pxx → (cumsum Pxx).getD j 0 < Pxx.sum / 2) ∧
    calculate_muscle_fatigue_from_psd f Pxx =
      max 0 (min 100 (100 * (1 - (f.getD (medianIdx Pxx) 0 - 30) / 90))) ∧
    0 ≤ calculate_muscle_fatigue_from_psd f Pxx ∧
    calculate_muscle_fatigue_from_psd f Pxx ≤ 100 := by
  have htot_nonneg : 0 ≤ Pxx.sum := List.sum_nonneg hpos
  have hbl_len :
      ((cumsum Pxx).map (fun c => decide (Pxx.sum / 2 ≤ c))).length = Pxx.length := by
    rw [List.length_map, cumsum_length]
  have htrue : true ∈ (cumsum Pxx).map (fun c => decide (Pxx.sum / 2 ≤ c)) := by
    have hmem := cumsum_sum_mem Pxx hne
    have h2 := List.mem_map_of_mem (fun c => decide (Pxx.sum / 2 ≤ c)) hmem
    simpa [show Pxx.sum / 2 ≤ Pxx.sum by linarith] using h2
  obtain ⟨i, hi⟩ := Option.isSome_iff_exists.mp (firstTrue_isSome _ htrue)
  have hidx : medianIdx Pxx = i := by
    unfold medianIdx argmaxBool
    rw [hi]
    rfl
  obtain ⟨hlt, hget, hbefore⟩ := firstTrue_eq_some _ i hi
  have hltP : i < Pxx.length := hbl_len ▸ hlt
  have hltC : i < (cumsum Pxx).length := by rw [cumsum_length]; exact hltP
  have hat : Pxx.sum / 2 ≤ (cumsum Pxx).getD i 0 := by
    have h3 := hget
    rw [getD_map_bool _ _ _ hltC] at h3
    exact of_decide_eq_true h3
  have hbef : ∀ j, j < i → (cumsum Pxx).getD j 0 < Pxx.sum / 2 := by
    intro j hj
    have hjC : j < (cumsum Pxx).length := lt_trans hj hltC
    have h3 := hbefore j hj
    rw [getD_map_bool _ _ _ hjC] at h3
    exact lt_of_not_le (of_decide_eq_false h3)
  refine ⟨hidx ▸ hltP, hidx ▸ (hlen ▸ hltP), hidx ▸ hat, ?_, rfl, ?_, ?_⟩
  · intro j hj
    exact hbef j (hidx ▸ hj)
  · exact le_max_left 0 _
  · exact max_le (by norm_num) (min_le_left _ _)

/-- Witness for C5 at the concrete spectrum f = [0, 10, 50], Pxx = [1, 2, 1]. -/
theorem c5_fatigue_index_witness :
    calculate_muscle_fatigue_from_psd [(0 : ℚ), 10, 50] [1, 2, 1] ≤ 100 :=
  (c5_fatigue_index [0, 10, 50] [1, 2, 1] (by decide) (by decide)
    (by decide)).2.2.2.2.2.2

/-! ## Prediction model (src/prediction_model.py) -/

/-- Embedding of Python int() on a rational: truncation toward zero. -/
def pyInt (q : ℚ) : ℤ := if 0 ≤ q then ⌊q⌋ else -⌊-q⌋

/-- The fitted sklearn pipeline owned by PredictionModel: its class-1
probability function (StandardScaler followed by the RandomForest's
predict_proba, a pure function of the fit) and the classifier's raw
feature_importances_ vector. -/
structure TrainedModel where
  predictProba : List ℚ → ℚ
  importances : List ℚ

/-- The dictionary returned by predict_risk. -/
structure RiskAssessment where
  risk_score : ℤ
  risk_label : String
  risk_factors : List (String × ℚ)
  prediction_confidence : ℤ
deriving DecidableEq

/-- The eight-entry feature_names schema of PredictionModel. -/
def featureNames : List String :=
  ["semg_imbalance", "muscle_fatigue", "training_load", "recovery_time",
   "previous_injuries", "temperature_variation", "age", "consecutive_games"]

/-- Stable descending insertion used to embed Python sorted(key, reverse). -/
def insertDesc (a : String × ℚ) : List (String × ℚ) → List (String × ℚ)
  | [] => [a]
  | b :: bs => if b.2 < a.2 then a :: b :: bs else b :: insertDesc a bs

/-- Embedding of sorted(importance_dict.items(), key, reverse=True). -/
def sortDesc (l : List (String × ℚ)) : List (String × ℚ) :=
  l.foldr insertDesc []

/-- Embedding of get_feature_importance on a present model: zip the schema
names with the raw importances and sort descending by value. -/
def get_feature_importance (m : TrainedModel) : List (String × ℚ) :=
  sortDesc (featureNames.zip m.importances)

/-- The athlete_data dictionary passed to predict_risk: scalar feature
lookups plus the injury_history list consulted for previous_injuries. -/
structure AthleteData where
  vals : String → Option ℚ
  injuryHistory : List String

/-- One draw from the random stream backing the random module. -/
def draw : List ℚ → ℚ × List ℚ
  | [] => (0, [])
  | u :: g => (u, g)

/-- Embedding of random.uniform(a, b): an affine image of one raw draw. -/
def uniformR (a b : ℚ) (g : List ℚ) : ℚ × List ℚ :=
  let p := draw g
  (a + (b - a) * p.1, p.2)

/-- Embedding of random.randint(a, b): an affine image of one raw draw. -/
def randintR (a b : ℤ) (g : List ℚ) : ℚ × List ℚ :=
  let p := draw g
  ((a : ℚ) + ((b : ℚ) - (a : ℚ)) * p.1, p.2)

/-- One iteration of the predict_risk feature loop: take the supplied value
when the feature is present in athlete_data, otherwise fall back to the
per-feature imputation branch (random draw, injury-history length, or the
zero the features array was initialized with). -/
def fillFeature (data : AthleteData) (name : String) (g : List ℚ) : ℚ × List ℚ :=
  match data.vals name with
  | some v => (v, g)
  | none =>
    if name = "semg_imbalance" then uniformR 5 30 g
    else if name = "muscle_fatigue" then uniformR 20 80 g
    else if name = "training_load" then uniformR 30 90 g
    else if name = "recovery_time" then uniformR 12 48 g
    else if name = "previous_injuries" then ((data.injuryHistory.length : ℚ), g)
    else if name = "temperature_variation" then uniformR (1 / 10) (3 / 2) g
    else if name = "age" then
      let p := randintR 18 35 g
      ((data.vals ("age")).getD p.1, p.2)
    else if name = "consecutive_games" then randintR 0 10 g
    else (0, g)

/-- The predict_risk feature loop over a list of feature names, threading
the random stream. -/
def fillFeatures (data : AthleteData) : List String → List ℚ → List ℚ × List ℚ
  | [], g => ([], g)
  | n :: ns, g =>
    let p := fillFeature data n g
    let q := fillFeatures data ns p.2
    (p.1 :: q.1, q.2)

/-- Embedding of PredictionModel.predict_risk on a fitted model: assemble
the feature vector, query the pipeline for the class-1 probability, and
build the returned dictionary. -/
def predict_risk (m : TrainedModel) (data : AthleteData) (g : List ℚ) :
    RiskAssessment × List ℚ :=
  let fr := fillFeatures data featureNames g
  let probability := m.predictProba fr.1
  let risk_score := pyInt (probability * 100)
  { risk_score := risk_score
    risk_label :=
      if 60 ≤ risk_score then "High"
      else if 30 ≤ risk_score then "Medium" else "Low"
    risk_factors := get_feature_importance m
    prediction_confidence := pyInt ((1 - |probability - 1 / 2| * 2) * 100) }
  |> (fun a => (a, fr.2))

/-! ## PredictionModel state machine (persistence and the model field) -/

/-- The Python exceptions that can escape the modelled methods. -/
inductive PyError where
  | fileNotFound
  | attributeError
deriving DecidableEq

/-- The mutable state of a PredictionModel instance: its model field. -/
structure ModelState where
  model : Option TrainedModel

/-- Embedding of save_model: a no-op on an absent model; otherwise the
joblib.dump call (its success given by dumpOk) writes the artifact, and any
dump failure is caught and only printed. -/
def save_model (s : ModelState) (fs : Option TrainedModel) (dumpOk : Bool) :
    Except PyError (ModelState × Option TrainedModel) :=
  match s.model with
  | none => Except.ok (s, fs)
  | some m => if dumpOk then Except.ok (s, some m) else Except.ok (s, fs)

/-- Embedding of train_model: the sklearn fit on the synthetic training set
is abstracted as the parameter tr; the method stores it in the model field
and then calls save_model. -/
def train_model (tr : TrainedModel) (fs : Option TrainedModel) (dumpOk : Bool) :
    ModelState × Option TrainedModel :=
  let s : ModelState := ⟨some tr⟩
  match save_model s fs dumpOk with
  | Except.ok r => r
  | Except.error _ => (s, fs)

/-- Embedding of load_model: read the artifact when it exists, otherwise
raise FileNotFoundError leaving the state unchanged. -/
def load_model (fs : Option TrainedModel) :
    Except PyError (ModelState × Option TrainedModel) :=
  match fs with
  | some m => Except.ok (⟨some m⟩, fs)
  | none => Except.error PyError.fileNotFound

/-- Embedding of PredictionModel.__init__: model starts as None, load_model
is tried, and on any exception train_model runs as the fallback. -/
def initPM (tr : TrainedModel) (fs : Option TrainedModel) (dumpOk : Bool) :
    ModelState × Option TrainedModel :=
  match load_model fs with
  | Except.ok r => r
  | Except.error _ => train_model tr fs dumpOk

/-- Embedding of get_feature_importance as a method: re-train first when the
model field is None, then read the importances off the stored pipeline. -/
def get_feature_importance_op (tr : TrainedModel) (s : ModelState)
    (fs : Option TrainedModel) (dumpOk : Bool) :
    List (String × ℚ) × ModelState × Option TrainedModel :=
  match s.model with
  | some m => (get_feature_importance m, s, fs)
  | none =>
    let r := train_model tr fs dumpOk
    match r.1.model with
    | some m => (get_feature_importance m, r.1, r.2)
    | none => ([], r.1, r.2)

/-- Embedding of predict_risk as a method: predict_proba on a None model
raises AttributeError before anything else; on a fitted model the pure
prediction runs and the state is untouched. -/
def predict_risk_op (s : ModelState) (fs : Option TrainedModel)
    (data : AthleteData) (g : List ℚ) :
    Except PyError (RiskAssessment × List ℚ) × ModelState × Option TrainedModel :=
  match s.model with
  | none => (Except.error PyError.attributeError, s, fs)
  | some m => (Except.ok (predict_risk m data g), s, fs)

/-- The public operations of a PredictionModel instance. -/
inductive PMOp where
  | opTrain (dumpOk : Bool)
  | opSave (dumpOk : Bool)
  | opLoad
  | opImportance (dumpOk : Bool)
  | opPredict (data : AthleteData) (g : List ℚ)

/-- State transition of one public operation (exceptions leave the state
unchanged, as in Python). -/
def stepPM (tr : TrainedModel) (c : ModelState × Option TrainedModel) :
    PMOp → ModelState × Option TrainedModel
  | PMOp.opTrain d => train_model tr c.2 d
  | PMOp.opSave d =>
    match save_model c.1 c.2 d with
    | Except.ok r => r
    | Except.error _ => c
  | PMOp.opLoad =>
    match load_model c.2 with
    | Except.ok r => r
    | Except.error _ => c
  | PMOp.opImportance d => (get_feature_importance_op tr c.1 c.2 d).2
  | PMOp.opPredict data g => (predict_risk_op c.1 c.2 data g).2

/-- Run a sequence of public operations from a configuration. -/
def runPM (tr : TrainedModel) (c : ModelState × Option TrainedModel)
    (ops : List PMOp) : ModelState × Option TrainedModel :=
  ops.foldl (stepPM tr) c

/-! ### Prediction theorems -/

theorem fillFeatures_complete (data : AthleteData) (names : List String)
    (h : ∀ n ∈ names, (data.vals n).isSome = true) (g : List ℚ) :
    fillFeatures data names g = (names.map (fun n => (data.vals n).getD 0), g) := by
  induction names generalizing g with
  | nil => rfl
  | cons n ns ih =>
    have hn := h n (List.mem_cons_self n ns)
    obtain ⟨v, hv⟩ := Option.isSome_iff_exists.mp hn
    have hns : ∀ x ∈ ns, (data.vals x).isSome = true :=
      fun x hx => h x (List.mem_cons_of_mem _ hx)
    simp [fillFeatures, fillFeature, hv, ih hns]

/-- C1: with all eight schema features supplied in athlete_data, predict_risk
is a deterministic function of the model and the input features: the
returned RiskAssessment does not depend on the random stream, and a second
call on the stream left by a first call returns the identical assessment. -/
theorem c1_predict_deterministic (m : TrainedModel) (data : AthleteData)
    (h : ∀ n ∈ featureNames, (data.vals n).isSome = true) (g₁ g₂ : List ℚ) :
    (predict_risk m data g₁).1 = (predict_risk m data g₂).1 ∧
    (predict_risk m data ((predict_risk m data g₁).2)).1 =
      (predict_risk m data g₁).1 := by
  have key : ∀ g g' : List ℚ, (predict_risk m data g).1 = (predict_risk m data g').1 := by
    intro g g'
    simp only [predict_risk, fillFeatures_complete data featureNames h]
  exact ⟨key g₁ g₂, key _ _⟩

/-- A concrete fitted model whose pipeline reports probability 1/2. -/
def m0 : TrainedModel := ⟨fun _ => 1 / 2, []⟩

/-- A concrete athlete_data supplying every feature as 0. -/
def data0 : AthleteData := ⟨fun _ => some 0, []⟩

/-- Witness for C1 at a concrete model, complete athlete_data and two
distinct random streams. -/
theorem c1_predict_deterministic_witness :
    (predict_risk m0 data0 []).1 = (predict_risk m0 data0 [1]).1 ∧
    (predict_risk m0 data0 ((predict_risk m0 data0 []).2)).1 =
      (predict_risk m0 data0 []).1 :=
  c1_predict_deterministic m0 data0 (fun _ _ => rfl) [] [1]

/-- A concrete fitted model whose pipeline reports probability 0.999. -/
def m999 : TrainedModel := ⟨fun _ => 999 / 1000, []⟩

/-- Counterexample for C2: at class-1 probability 0.999 the code returns
risk_score 99 (Python int truncation of 99.9) while round(p*100) = 100. -/
theorem c2_round_counterexample :
    (predict_risk m999 data0 []).1.risk_score ≠
      round ((999 / 1000 : ℚ) * 100) := by
  have e1 : (predict_risk m999 data0 []).1.risk_score =
      pyInt ((999 / 1000 : ℚ) * 100) := rfl
  rw [e1, pyInt, if_pos (by norm_num), round_eq]
  norm_num

/-- C2 (amended): for a nonnegative class-1 probability p, risk_score is the
floor of p*100 (Python int truncation, not rounding), and risk_label follows
the 60/30 thresholds on risk_score. -/
theorem c2_amended_risk_score (m : TrainedModel) (data : AthleteData) (g : List ℚ)
    (h : 0 ≤ m.predictProba (fillFeatures data featureNames g).1) :
    (predict_risk m data g).1.risk_score =
      ⌊m.predictProba (fillFeatures data featureNames g).1 * 100⌋ ∧
    (60 ≤ (predict_risk m data g).1.risk_score →
      (predict_risk m data g).1.risk_label = "High") ∧
    (30 ≤ (predict_risk m data g).1.risk_score ∧
        (predict_risk m data g).1.risk_score < 60 →
      (predict_risk m data g).1.risk_label = "Medium") ∧
    ((predict_risk m data g).1.risk_score < 30 →
      (predict_risk m data g).1.risk_label = "Low") := by
  have hp100 : (0 : ℚ) ≤ m.predictProba (fillFeatures data featureNames g).1 * 100 :=
    mul_nonneg h (by norm_num)
  have e1 : (predict_risk m data g).1.risk_score =
      pyInt (m.predictProba (fillFeatures data featureNames g).1 * 100) := rfl
  have efloor : pyInt (m.predictProba (fillFeatures data featureNames g).1 * 100) =
      ⌊m.predictProba (fillFeatures data featureNames g).1 * 100⌋ := by
    rw [pyInt, if_pos hp100]
  have e2 : (predict_risk m data g).1.risk_label =
      (if 60 ≤ pyInt (m.predictProba (fillFeatures data featureNames g).1 * 100)
        then "High"
        else if 30 ≤ pyInt (m.predictProba (fillFeatures data featureNames g).1 * 100)
          then "Medium" else "Low") := rfl
  refine ⟨by rw [e1, efloor], ?_, ?_, ?_⟩
  · intro hge
    rw [e1] at hge
    rw [e2, if_pos hge]
  · rintro ⟨h30, h60⟩
    rw [e1] at h30 h60
    rw [e2, if_neg (by omega), if_pos h30]
  · intro hlt
    rw [e1] at hlt
    rw [e2, if_neg (by omega), if_neg (by omega)]

/-- Witness for C2 (amended) at probability 1/2. -/
theorem c2_amended_risk_score_witness :
    (predict_risk m0 data0 []).1.risk_score =
      ⌊m0.predictProba (fillFeatures data0 featureNames []).1 * 100⌋ :=
  (c2_amended_risk_score m0 data0 []
    (by exact (show (0 : ℚ) ≤ 1 / 2 by norm_num))).1

/-- A concrete fitted model whose pipeline reports probability 0.253. -/
def m253 : TrainedModel := ⟨fun _ => 253 / 1000, []⟩

/-- Counterexample for C3: at class-1 probability 0.253 the code returns
confidence 50 (Python int truncation of 50.6) while the claimed
round((1 - 2|p - 0.5|)*100) = 51. -/
theorem c3_round_counterexample :
    (predict_risk m253 data0 []).1.prediction_confidence ≠
      round ((1 - 2 * |(253 / 1000 : ℚ) - 1 / 2|) * 100) := by
  have habs : |(253 / 1000 : ℚ) - 1 / 2| = 247 / 1000 := by
    rw [abs_of_nonpos (by norm_num)]
    norm_num
  have e1 : (predict_risk m253 data0 []).1.prediction_confidence =
      pyInt ((1 - |(253 / 1000 : ℚ) - 1 / 2| * 2) * 100) := rfl
  rw [e1, habs, pyInt, if_pos (by norm_num), round_eq]
  norm_num

/-- C3 (amended): for a class-1 probability p in [0, 1], the returned
confidence is the floor of (1 - 2|p - 0.5|)*100 (Python int truncation, not
rounding); it lies in [0, 100], equals 100 at p = 1/2 and 0 at p = 0 or 1. -/
theorem c3_amended_confidence (m : TrainedModel) (data : AthleteData) (g : List ℚ)
    (h0 : 0 ≤ m.predictProba (fillFeatures data featureNames g).1)
    (h1 : m.predictProba (fillFeatures data featureNames g).1 ≤ 1) :
    (predict_risk m data g).1.prediction_confidence =
      ⌊(1 - 2 * |m.predictProba (fillFeatures data featureNames g).1 - 1 / 2|) * 100⌋ ∧
    0 ≤ (predict_risk m data g).1.prediction_confidence ∧
    (predict_risk m data g).1.prediction_confidence ≤ 100 ∧
    (m.predictProba (fillFeatures data featureNames g).1 = 1 / 2 →
      (predict_risk m data g).1.prediction_confidence = 100) ∧
    (m.predictProba (fillFeatures data featureNames g).1 = 0 ∨
        m.predictProba (fillFeatures data featureNames g).1 = 1 →
      (predict_risk m data g).1.prediction_confidence = 0) := by
  have habs : |m.predictProba (fillFeatures data featureNames g).1 - 1 / 2| ≤ 1 / 2 :=
    abs_le.mpr ⟨by linarith, by linarith⟩
  have harg0 : (0 : ℚ) ≤
      (1 - |m.predictProba (fillFeatures data featureNames g).1 - 1 / 2| * 2) * 100 :=
    mul_nonneg (by linarith) (by norm_num)
  have e1 : (predict_risk m data g).1.prediction_confidence =
      pyInt ((1 - |m.predictProba (fillFeatures data featureNames g).1 - 1 / 2| * 2) * 100) :=
    rfl
  have efloor : (predict_risk m data g).1.prediction_confidence =
      ⌊(1 - 2 * |m.predictProba (fillFeatures data featureNames g).1 - 1 / 2|) * 100⌋ := by
    rw [e1, pyInt, if_pos harg0]
    congr 1
    ring
  have hargle : (1 - 2 * |m.predictProba (fillFeatures data featureNames g).1 - 1 / 2|) * 100
      ≤ (100 : ℚ) := by
    have := abs_nonneg (m.predictProba (fillFeatures data featureNames g).1 - 1 / 2)
    nlinarith
  refine ⟨efloor, ?_, ?_, ?_, ?_⟩
  · rw [efloor]
    exact Int.le_floor.mpr (by push_cast; linarith [harg0])
  · rw [efloor]
    calc ⌊(1 - 2 * |m.predictProba (fillFeatures data featureNames g).1 - 1 / 2|) * 100⌋
        ≤ ⌊(100 : ℚ)⌋ := Int.floor_le_floor hargle
      _ = 100 := by norm_num
  · intro hhalf
    rw [efloor, hhalf]
    norm_num
  · intro hend
    rcases hend with he | he
    · rw [efloor, he,
        show |(0 : ℚ) - 1 / 2| = 1 / 2 by rw [abs_of_nonpos (by norm_num)]; norm_num]
      norm_num
    · rw [efloor, he,
        show |(1 : ℚ) - 1 / 2| = 1 / 2 by rw [abs_of_nonneg (by norm_num)]; norm_num]
      norm_num

/-- Witness for C3 (amended) at probability 1/2. -/
theorem c3_amended_confidence_witness :
    (predict_risk m0 data0 []).1.prediction_confidence =
      ⌊(1 - 2 * |m0.predictProba (fillFeatures data0 featureNames []).1 - 1 / 2|) * 100⌋ :=
  (c3_amended_confidence m0 data0 []
    (by exact (show (0 : ℚ) ≤ 1 / 2 by norm_num))
    (by exact (show (1 / 2 : ℚ) ≤ 1 by norm_num))).1

/-! ### State-machine theorems -/

theorem save_model_ok (s : ModelState) (fs : Option TrainedModel) (d : Bool) :
    ∃ fs2, save_model s fs d = Except.ok (s, fs2) := by
  cases hm : s.model with
  | none => exact ⟨fs, by simp [save_model, hm]⟩
  | some m =>
    cases d with
    | false => exact ⟨fs, by simp [save_model, hm]⟩
    | true => exact ⟨some m, by simp [save_model, hm]⟩

theorem train_model_fst (tr : TrainedModel) (fs : Option TrainedModel) (d : Bool) :
    (train_model tr fs d).1 = ⟨some tr⟩ := by
  obtain ⟨fs2, hsave⟩ := save_model_ok ⟨some tr⟩ fs d
  simp [train_model, hsave]

theorem stepPM_preserves (tr : TrainedModel) (c : ModelState × Option TrainedModel)
    (h : c.1.model.isSome = true) (op : PMOp) :
    ((stepPM tr c op).1.model).isSome = true := by
  cases op with
  | opTrain d => simp [stepPM, train_model_fst]
  | opSave d =>
    obtain ⟨fs2, hsave⟩ := save_model_ok c.1 c.2 d
    simp [stepPM, hsave, h]
  | opLoad =>
    cases hfs : c.2 with
    | none => simp [stepPM, load_model, hfs, h]
    | some m => simp [stepPM, load_model, hfs]
  | opImportance d =>
    cases hm : c.1.model with
    | some m => simp [stepPM, get_feature_importance_op, hm, h]
    | none => simp [hm] at h
  | opPredict data g =>
    cases hm : c.1.model with
    | none => simp [hm] at h
    | some m => simp [stepPM, predict_risk_op, hm]

theorem runPM_preserves (tr : TrainedModel) (ops : List PMOp) :
    ∀ c, c.1.model.isSome = true → ((runPM tr c ops).1.model).isSome = true := by
  induction ops with
  | nil => exact fun c h => h
  | cons op ops ih =>
    intro c h
    exact ih _ (stepPM_preserves tr c h op)

theorem initPM_isSome (tr : TrainedModel) (fs : Option TrainedModel) (d : Bool) :
    ((initPM tr fs d).1.model).isSome = true := by
  cases fs with
  | some m => simp [initPM, load_model]
  | none => simp [initPM, load_model, train_model_fst]

/-- C9: after __init__ the model field holds a fitted pipeline (loaded or
freshly trained), every sequence of public operations preserves this, and
get_feature_importance on an absent model re-trains instead of failing, so
no public operation observes the Untrained state. -/
theorem c9_model_always_fitted (tr : TrainedModel) (fs : Option TrainedModel)
    (dumpOk : Bool) (ops : List PMOp) :
    ((initPM tr fs dumpOk).1.model).isSome = true ∧
    ((runPM tr (initPM tr fs dumpOk) ops).1.model).isSome = true ∧
    (get_feature_importance_op tr ⟨none⟩ fs dumpOk).2.1.model = some tr := by
  refine ⟨initPM_isSome tr fs dumpOk,
    runPM_preserves tr ops _ (initPM_isSome tr fs dumpOk), ?_⟩
  have htf := train_model_fst tr fs dumpOk
  simp [get_feature_importance_op, htf]

/-- C10: save_model never raises (any dump failure is caught internally) and
never mutates the in-memory model state; only the artifact may change. -/
theorem c10_save_model_safe (s : ModelState) (fs : Option TrainedModel) (d : Bool) :
    ∃ fs2, save_model s fs d = Except.ok (s, fs2) :=
  save_model_ok s fs d

/-! ## RMS envelope and imbalance (src/data_processor.py), over the reals -/

/-- Embedding of np.lib.stride_tricks.sliding_window_view on a 1-D array:
the list of all length-w contiguous windows. -/
def slidingWindows (w : ℕ) (s : List ℝ) : List (List ℝ) :=
  (List.range (s.length + 1 - w)).map (fun k => (s.drop k).take w)

/-- Embedding of calculate_rms: square the signal, take sliding windows of
window_size samples, and map each window to the square root of its mean.
A signal shorter than the window raises ValueError in numpy, modelled as
none. -/
noncomputable def calculate_rms (s : List ℝ) (window_size : ℕ) : Option (List ℝ) :=
  if s.length < window_size then none
  else
    some ((slidingWindows window_size (s.map (fun x => x ^ 2))).map
      (fun win => Real.sqrt (win.sum / (window_size : ℝ))))

/-- Embedding of np.mean on a list. -/
noncomputable def listMean (l : List ℝ) : ℝ := l.sum / (l.length : ℝ)

/-- Embedding of calculate_muscle_imbalance: average the two 100-sample RMS
envelopes, then 100|L - R|/(L + R), or 0 when the total is not positive. -/
noncomputable def calculate_muscle_imbalance (left_semg right_semg : List ℝ) :
    Option ℝ :=
  match calculate_rms left_semg 100, calculate_rms right_semg 100 with
  | some envL, some envR =>
    let left_rms := listMean envL
    let right_rms := listMean envR
    let total := left_rms + right_rms
    some (if 0 < total then 100 * |left_rms - right_rms| / total else 0)
  | _, _ => none

/-- Mean of the default 100-sample RMS envelope of a signal. -/
noncomputable def meanRms (s : List ℝ) : ℝ :=
  listMean ((calculate_rms s 100).getD [])

/-! ### RMS lemmas -/

theorem slidingWindows_getElem (w : ℕ) (t : List ℝ) (k : ℕ)
    (hk : k < (slidingWindows w t).length) :
    (slidingWindows w t)[k] = (t.drop k).take w := by
  simp [slidingWindows]

theorem calculate_rms_eq (s : List ℝ) (w : ℕ) (h : w ≤ s.length) :
    calculate_rms s w = some ((slidingWindows w (s.map (fun x => x ^ 2))).map
      (fun win => Real.sqrt (win.sum / (w : ℝ)))) := by
  rw [calculate_rms, if_neg (not_lt.mpr h)]

theorem rms_env_nonneg (s : List ℝ) (w : ℕ) (env : List ℝ)
    (h : calculate_rms s w = some env) : ∀ x ∈ env, 0 ≤ x := by
  rw [calculate_rms] at h
  by_cases hlen : s.length < w
  · simp [hlen] at h
  · rw [if_neg hlen] at h
    replace h := Option.some.inj h
    intro x hx
    rw [← h] at hx
    obtain ⟨win, _, rfl⟩ := List.mem_map.mp hx
    exact Real.sqrt_nonneg _

theorem meanRms_nonneg (s : List ℝ) : 0 ≤ meanRms s := by
  rw [meanRms]
  cases h : calculate_rms s 100 with
  | none => simp [listMean]
  | some env =>
    have hnn := rms_env_nonneg s 100 env h
    simp only [Option.getD_some, listMean]
    exact div_nonneg (List.sum_nonneg hnn) (by positivity)

theorem imbalance_eq (l r envL envR : List ℝ)
    (eL : calculate_rms l 100 = some envL) (eR : calculate_rms r 100 = some envR) :
    calculate_muscle_imbalance l r =
      some (if 0 < listMean envL + listMean envR
        then 100 * |listMean envL - listMean envR| / (listMean envL + listMean envR)
        else 0) := by
  unfold calculate_muscle_imbalance
  rw [eL, eR]

/-- C4: on windows long enough for the default RMS envelope, the imbalance
is 100|L - R|/(L + R) for the mean envelope values L and R (0 when the total
is not positive, in particular when both sides are zero); it always lies in
[0, 100], is unchanged by swapping left and right, and is exactly 0 when the
two sides are identical. -/
theorem c4_muscle_imbalance (l r : List ℝ) (hl : 100 ≤ l.length)
    (hr : 100 ≤ r.length) :
    ∃ v, calculate_muscle_imbalance l r = some v ∧
      calculate_muscle_imbalance r l = some v ∧
      0 ≤ v ∧ v ≤ 100 ∧ (l = r → v = 0) ∧
      v = (if 0 < meanRms l + meanRms r
        then 100 * |meanRms l - meanRms r| / (meanRms l + meanRms r) else 0) := by
  obtain ⟨envL, eL⟩ : ∃ e, calculate_rms l 100 = some e :=
    ⟨_, calculate_rms_eq l 100 hl⟩
  obtain ⟨envR, eR⟩ : ∃ e, calculate_rms r 100 = some e :=
    ⟨_, calculate_rms_eq r 100 hr⟩
  have hml : meanRms l = listMean envL := by rw [meanRms, eL, Option.getD_some]
  have hmr : meanRms r = listMean envR := by rw [meanRms, eR, Option.getD_some]
  have hLnn : 0 ≤ listMean envL := hml ▸ meanRms_nonneg l
  have hRnn : 0 ≤ listMean envR := hmr ▸ meanRms_nonneg r
  refine ⟨_, imbalance_eq l r envL envR eL eR, ?_, ?_, ?_, ?_, ?_⟩
  · rw [imbalance_eq r l envR envL eR eL, add_comm (listMean envR),
      abs_sub_comm (listMean envR)]
  · by_cases ht : 0 < listMean envL + listMean envR
    · rw [if_pos ht]
      exact div_nonneg (mul_nonneg (by norm_num) (abs_nonneg _)) ht.le
    · rw [if_neg ht]
  · by_cases ht : 0 < listMean envL + listMean envR
    · rw [if_pos ht, div_le_iff₀ ht]
      have habs : |listMean envL - listMean envR| ≤ listMean envL + listMean envR :=
        abs_le.mpr ⟨by linarith, by linarith⟩
      nlinarith
    · rw [if_neg ht]
      norm_num
  · intro hlr
    subst hlr
    have henv : envL = envR := Option.some.inj (eL ▸ eR)
    subst henv
    simp
  · rw [hml, hmr]

/-- Witness for C4 on two identical constant signals of 100 samples. -/
theorem c4_muscle_imbalance_witness :
    ∃ v, calculate_muscle_imbalance (List.replicate 100 (3 : ℝ))
        (List.replicate 100 (3 : ℝ)) = some v ∧
      calculate_muscle_imbalance (List.replicate 100 (3 : ℝ))
        (List.replicate 100 (3 : ℝ)) = some v ∧
      0 ≤ v ∧ v ≤ 100 ∧
      (List.replicate 100 (3 : ℝ) = List.replicate 100 (3 : ℝ) → v = 0) ∧
      v = (if 0 < meanRms (List.replicate 100 (3 : ℝ)) +
            meanRms (List.replicate 100 (3 : ℝ))
        then 100 * |meanRms (List.replicate 100 (3 : ℝ)) -
            meanRms (List.replicate 100 (3 : ℝ))| /
          (meanRms (List.replicate 100 (3 : ℝ)) + meanRms (List.replicate 100 (3 : ℝ)))
        else 0) :=
  c4_muscle_imbalance (List.replicate 100 (3 : ℝ)) (List.replicate 100 (3 : ℝ))
    (by simp) (by simp)

/-- C8: calculate_rms succeeds exactly when the signal has at least
window_size samples; then the envelope has length len - window_size + 1 and
its k-th entry is the RMS of samples k .. k+window_size-1; shorter inputs
fail, so the imbalance computation requires at least 100 samples per side. -/
theorem c8_rms_precondition (s : List ℝ) (w : ℕ) (_hw : 1 ≤ w) :
    (s.length < w → calculate_rms s w = none) ∧
    (w ≤ s.length → ∃ env, calculate_rms s w = some env ∧
      env.length = s.length - w + 1 ∧
      ∀ k, ∀ hk : k < env.length,
        env.get ⟨k, hk⟩ =
          Real.sqrt ((((s.drop k).take w).map (fun x => x ^ 2)).sum / (w : ℝ))) ∧
    (∀ r, s.length < 100 →
      calculate_muscle_imbalance s r = none ∧
      calculate_muscle_imbalance r s = none) := by
  refine ⟨fun h => by rw [calculate_rms, if_pos h], fun h => ?_, fun r h => ?_⟩
  · refine ⟨_, calculate_rms_eq s w h, ?_, ?_⟩
    · simp only [List.length_map, slidingWindows, List.length_range]
      omega
    · intro k hk
      rw [List.get_eq_getElem, List.getElem_map, slidingWindows_getElem,
        ← List.map_drop, ← List.map_take]
  · have hnone : calculate_rms s 100 = none := by rw [calculate_rms, if_pos h]
    constructor
    · simp [calculate_muscle_imbalance, hnone]
    · cases hcr : calculate_rms r 100 with
      | none => simp [calculate_muscle_imbalance, hcr]
      | some env => simp [calculate_muscle_imbalance, hcr, hnone]

/-- Witness for C8: both imbalance orientations fail on a 1-sample side. -/
theorem c8_rms_precondition_witness :
    calculate_muscle_imbalance [(1 : ℝ)] [] = none ∧
    calculate_muscle_imbalance [] [(1 : ℝ)] = none :=
  (c8_rms_precondition [(1 : ℝ)] 2 (by decide)).2.2 [] (by decide)

/-! ## Signal filter (src/data_processor.py, filter_semg; spec section 4.1) -/

/-- The fixed sample rate of DataProcessor, in Hz. -/
def sample_rate : ℚ := 1000

/-- The fixed Butterworth order of DataProcessor. -/
def butterworth_order : ℕ := 4

/-- The fixed high-pass cut-off of DataProcessor, in Hz. -/
def lowcut : ℚ := 20

/-- The fixed low-pass cut-off of DataProcessor, in Hz. -/
def highcut : ℚ := 450

/-- The error raised by the SignalFilter contract on bad parameters. -/
inductive FilterError where
  | invalidFilterSpec
deriving DecidableEq

/-- The SignalFilter parameter constraints: 0 < low_hz < high_hz < Nyquist
and order at least 1. -/
def filterValid (low_hz high_hz rate : ℚ) (order : ℕ) : Prop :=
  0 < low_hz ∧ low_hz < high_hz ∧ high_hz < rate / 2 ∧ 1 ≤ order

instance (low_hz high_hz rate : ℚ) (order : ℕ) :
    Decidable (filterValid low_hz high_hz rate order) := by
  unfold filterValid
  infer_instance

/-- Modelled from the spec: the parameterized SignalFilter.filter contract
with its InvalidFilterSpec validation is absent from src (filter_semg runs
on the fixed DataProcessor constants and performs no validation); the
Butterworth design plus forward-backward filtfilt application is abstracted
as the kernel argument, applied only after validation succeeds. -/
def filterSignal (kernel : ℚ → ℚ → ℚ → ℕ → List ℚ → List ℚ)
    (low_hz high_hz rate : ℚ) (order : ℕ) (x : List ℚ) :
    Except FilterError (List ℚ) :=
  if filterValid low_hz high_hz rate order then
    Except.ok (kernel low_hz high_hz rate order x)
  else Except.error FilterError.invalidFilterSpec

/-- C7: the filter fails with InvalidFilterSpec, producing no output, exactly
when the parameter constraints are violated, and succeeds on any parameters
satisfying them; the fixed constants used by filter_semg satisfy the
constraints. -/
theorem c7_filter_validation (kernel : ℚ → ℚ → ℚ → ℕ → List ℚ → List ℚ)
    (low_hz high_hz rate : ℚ) (order : ℕ) (x : List ℚ) :
    (filterSignal kernel low_hz high_hz rate order x =
        Except.error FilterError.invalidFilterSpec ↔
      ¬ filterValid low_hz high_hz rate order) ∧
    (filterValid low_hz high_hz rate order →
      filterSignal kernel low_hz high_hz rate order x =
        Except.ok (kernel low_hz high_hz rate order x)) ∧
    filterValid lowcut highcut sample_rate butterworth_order := by
  refine ⟨⟨fun herr hvalid => ?_, fun hinvalid => ?_⟩, fun hvalid => ?_, ?_⟩
  · rw [filterSignal, if_pos hvalid] at herr
    exact Except.noConfusion herr
  · rw [filterSignal, if_neg hinvalid]
  · rw [filterSignal, if_pos hvalid]
  · refine ⟨?_, ?_, ?_, ?_⟩ <;> norm_num [lowcut, highcut, sample_rate, butterworth_order]

/-- Witness for C7: valid parameters pass an identity kernel through. -/
theorem c7_filter_validation_witness :
    filterSignal (fun _ _ _ _ x => x) 20 450 1000 4 [1, 2] = Except.ok [1, 2] :=
  (c7_filter_validation (fun _ _ _ _ x => x) 20 450 1000 4 [1, 2]).2.1
    (by refine ⟨?_, ?_, ?_, ?_⟩ <;> norm_num)

end InjSense
